import Mathlib

/-!
Verification of the go-latex tokenizer/parser/renderer against its
natural-language specification.  The Go sources are shallowly embedded:
the input stream becomes a `List Char`, the tokenizer becomes total
functions over it (the seek-based error recovery of the Go code becomes
returning a remembered suffix), and the recursive-descent parser becomes
fuel-indexed functions threading an explicit parser state.
-/

namespace Latex

/-- `{` written without a literal brace. -/
def lbrace : Char := '\x7b'

/-- `}` written without a literal brace. -/
def rbrace : Char := '\x7d'

/-- Backtick character. -/
def backquote : Char := '\x60'

/-- Apostrophe character. -/
def apos : Char := '\x27'

/-- tokenizer.go `isLetter`. -/
def isLetter (c : Char) : Bool :=
  ('a' ≤ c && c ≤ 'z') || ('A' ≤ c && c ≤ 'Z')

/-- tokenizer.go `isDigit` (with its quirks for bases above 10 kept as in the source). -/
def isDigit (r : Char) (base : Nat) : Bool :=
  if base ≤ 1 then r == '0'
  else if base ≤ 10 then '0' ≤ r && r < Char.ofNat ('0'.toNat + base)
  else if '0' ≤ r && r < '9' then true
  else 'A' ≤ r && r ≤ Char.ofNat ('A'.toNat + base - 10)

/-- tokenizer.go `isSpecial`. -/
def isSpecial (r : Char) : Bool :=
  r == '#' || r == '$' || r == '%' || r == '^' || r == '&' || r == '_' ||
  r == lbrace || r == rbrace || r == '~' || r == '\\' || r == '[' || r == ']' ||
  r == backquote || r == apos || r == '-' || r == '<' || r == '>'

/-- tokenizer.go `isWhitespace`. -/
def isWhitespace (r : Char) : Bool :=
  r == ' ' || r == '\n' || r == '\t' || r == '\r'

/-- tokenizer.go `isCommand`: one-symbol command characters. -/
def isCommandChar (r : Char) : Bool :=
  r == '\\' || r == '-'

/-- Go `unicode.IsSpace` restricted to the code points it accepts (used by `strings.TrimSpace`). -/
def isSpaceGo (c : Char) : Bool :=
  c == ' ' || c == '\t' || c == '\n' || c == '\r' || c == '\x0b' || c == '\x0c' ||
  c == '\x85' || c == '\xA0'

/-- Go `strings.TrimSpace`. -/
def trimSpaceStr (s : String) : String :=
  ⟨((s.data.dropWhile isSpaceGo).reverse.dropWhile isSpaceGo).reverse⟩

/-- Go `strings.HasSuffix`. -/
def hasSuffixStr (s suffix : String) : Bool :=
  suffix.data.isSuffixOf s.data

/-- Go `strings.TrimSuffix`. -/
def trimSuffixStr (s suffix : String) : String :=
  if hasSuffixStr s suffix then ⟨s.data.take (s.data.length - suffix.data.length)⟩ else s

/-- Tokens produced by the tokenizer (the Go `any` union of token types). -/
inductive Tok
  | text (s : String)
  | symbol (s : String)
  | command (s : String)
  | verbatim (kind data : String) (attr : List (String × String))
  | paramStart
  | paramEnd
  | optStart
  | optEnd
  | envStart (name : String)
  | envEnd (name : String)
deriving DecidableEq, Repr

/-- tokenizer.go `Skip`: drop runes until the next non-whitespace symbol. -/
def skipWS : List Char → List Char
  | [] => []
  | c :: rest => if isWhitespace c then skipWS rest else c :: rest

/-- tokenizer.go `SkipEOL`: drop whitespace, but stop after consuming one newline. -/
def skipEOL : List Char → List Char
  | [] => []
  | c :: rest =>
    if !isWhitespace c then c :: rest
    else if c == '\n' then rest
    else skipEOL rest

/-- tokenizer.go `word`: a maximal run of letters. -/
def word (input : List Char) : String × List Char :=
  (⟨input.takeWhile isLetter⟩, input.dropWhile isLetter)

/-- tokenizer.go `expect`: at end of input it succeeds without consuming. -/
def expect (e : Char) : List Char → Option (List Char)
  | [] => some []
  | c :: rest => if c == e then some rest else none

/-- tokenizer.go `star`: consume a following `*` if present. -/
def star : List Char → Bool × List Char
  | [] => (false, [])
  | c :: rest => if c == '*' then (true, rest) else (false, c :: rest)

/-- tokenizer.go `readText` (the loop after the cursor was moved back onto the first
text rune): accumulate until a special character (left unread) or a newline (consumed). -/
def readText (acc : List Char) : List Char → Tok × List Char
  | [] => (.text ⟨acc⟩, [])
  | c :: rest =>
    if isSpecial c then (.text ⟨acc⟩, c :: rest)
    else if c == '\n' then (.text ⟨acc ++ [c]⟩, rest)
    else readText (acc ++ [c]) rest

/-- The scanning loop of tokenizer.go `readMath`.  `startRest` is the suffix the Go code
seeks back to when the math is unterminated at end of input. -/
def readMathLoop (startRest : List Char) (isBlock : Bool) (runes : List Char)
    (isClosing : Bool) : List Char → Tok × List Char
  | [] => ((.text (if isBlock then "$$" else "$")), startRest)
  | c :: rest =>
    if c == '$' && !(runes.getLast? == some '\\') then
      if !isBlock then (.verbatim "$" ⟨runes.drop 1⟩ [], rest)
      else if isClosing then (.verbatim "$$" ⟨runes.drop 2⟩ [], rest)
      else readMathLoop startRest isBlock runes true rest
    else
      let runes' := if isClosing then runes ++ ['$'] else runes
      readMathLoop startRest isBlock (runes' ++ [c]) false rest

/-- tokenizer.go `readMath`, entered after the first `$` was consumed. -/
def readMath : List Char → Tok × List Char
  | [] => (.text "$", [])
  | c :: rest =>
    let isBlock := c == '$'
    let startRest := if isBlock then rest else c :: rest
    readMathLoop startRest isBlock ['$', c] false rest

/-- The `switch string(append(line, read))` test of tokenizer.go `readLigature`:
can `line` be extended by `c` towards one of the six ligature sequences. -/
def ligExtends (line : List Char) (c : Char) : Bool :=
  (line == ['<'] && c == '<') || (line == ['>'] && c == '>') ||
  (line == [backquote] && c == backquote) || (line == [apos] && c == apos) ||
  ((line == ['-'] || line == ['-', '-']) && c == '-')

/-- The loop of tokenizer.go `readLigature`. -/
def readLigatureLoop (line : List Char) : List Char → Tok × List Char
  | [] =>
    if line == ['<'] || line == ['>'] then (.text ⟨line⟩, [])
    else (.symbol ⟨line⟩, [])
  | c :: rest =>
    if ligExtends line c then readLigatureLoop (line ++ [c]) rest
    else if line == ['<'] || line == ['>'] then (.text ⟨line⟩, c :: rest)
    else (.symbol ⟨line⟩, c :: rest)

/-- tokenizer.go `readLigature`. -/
def readLigature (first : Char) (rest : List Char) : Tok × List Char :=
  readLigatureLoop [first] rest

/-- tokenizer.go `readLineComment`: discard to end of line, then also the
following whitespace. -/
def readLineCommentLoop (acc : List Char) : List Char → Tok × List Char
  | [] => (.verbatim "%" ⟨acc⟩ [], [])
  | c :: rest =>
    if c == '\n' then (.verbatim "%" ⟨acc⟩ [], skipWS rest)
    else readLineCommentLoop (acc ++ [c]) rest

/-- Digit value used by Go `strconv.ParseInt`. -/
def goDigitVal (c : Char) : Nat :=
  if '0' ≤ c && c ≤ '9' then c.toNat - '0'.toNat
  else if 'a' ≤ c && c ≤ 'z' then c.toNat - 'a'.toNat + 10
  else if 'A' ≤ c && c ≤ 'Z' then c.toNat - 'A'.toNat + 10
  else 99

/-- Go `strconv.ParseInt(s, base, 32)` on an unsigned digit string: `none` on an
empty string, a digit invalid for the base, or 32-bit overflow. -/
def parseIntGo (digits : List Char) (base : Nat) : Option Nat :=
  if digits.isEmpty then none
  else if digits.any (fun c => goDigitVal c ≥ base) then none
  else
    let v := digits.foldl (fun a c => a * base + goDigitVal c) 0
    if v > 2 ^ 31 - 1 then none else some v

/-- tokenizer.go `readNumber`. -/
def readNumber (base : Nat) (input : List Char) : Option (Nat × List Char) :=
  match parseIntGo (input.takeWhile (fun c => isDigit c base)) base with
  | none => none
  | some n => some (n, input.dropWhile (fun c => isDigit c base))

/-- Go conversion of an integer code point to a character: invalid code points
become U+FFFD. -/
def runeToChar (n : Nat) : Char :=
  if Nat.isValidChar n then Char.ofNat n else '\uFFFD'

/-- tokenizer.go `readChar`: `none` is a recoverable error handled in `readCommand`. -/
def readChar (input : List Char) : Option (Tok × List Char) :=
  match skipWS input with
  | [] => none
  | first :: rest =>
    if isDigit first 10 then
      match readNumber 10 (first :: rest) with
      | none => none
      | some (n, r) => some (.symbol ⟨[runeToChar n]⟩, r)
    else if first == apos then
      match readNumber 8 rest with
      | none => none
      | some (n, r) => some (.symbol ⟨[runeToChar n]⟩, r)
    else if first == '"' then
      match readNumber 16 rest with
      | none => none
      | some (n, r) => some (.symbol ⟨[runeToChar n]⟩, r)
    else none

/-- tokenizer.go `readVerbatim` (the `\verb` continuation): `none` is the
disallowed-delimiter (or end-of-input) error handled in `readCommand`. -/
def readVerbatim (command : String) (input : List Char) : Option (Tok × List Char) :=
  match input with
  | [] => none
  | d :: rest =>
    if isWhitespace d || isLetter d || d == '*' then none
    else
      let data := rest.takeWhile (fun c => !(c == d))
      let rem :=
        match rest.dropWhile (fun c => !(c == d)) with
        | [] => []
        | _ :: t => t
      some (.verbatim command ⟨data⟩ [("delimiter", ⟨[d]⟩)], rem)

/-- tokenizer.go `readBlockStart`: `none` is a recoverable error handled in
`readCommand`; an empty environment name yields the literal text the Go code returns. -/
def readBlockStart (input : List Char) : Option (Tok × List Char) :=
  match expect lbrace (skipWS input) with
  | none => none
  | some r1 =>
    let (w, r2) := word r1
    if w == "" then some (.text ⟨"\\begin".data ++ [lbrace]⟩, r2)
    else
      match expect rbrace r2 with
      | none => none
      | some r3 => some (.envStart w, r3)

/-- tokenizer.go `readBlockEnd`. -/
def readBlockEnd (input : List Char) : Option (Tok × List Char) :=
  match expect lbrace (skipWS input) with
  | none => none
  | some r1 =>
    let (w, r2) := word r1
    if w == "" then none
    else
      match expect rbrace r2 with
      | none => none
      | some r3 => some (.envEnd w, r3)

/-- tokenizer.go `readCommand`, entered on the letter run after a backslash.
A failing specialized continuation rewinds to just after the command name and
returns the command name as literal text. -/
def readCommand (input : List Char) : Tok × List Char :=
  let letters := input.takeWhile isLetter
  let r1 := input.dropWhile isLetter
  let runes : List Char := '\\' :: letters
  let withStar :=
    match r1 with
    | [] => (runes, [])
    | c :: t =>
      if c == '*' && !((⟨runes⟩ : String) == "\\begin") && !((⟨runes⟩ : String) == "\\end")
      then (runes ++ ['*'], t)
      else (runes, c :: t)
  let command : String := ⟨withStar.1⟩
  let pos := withStar.2
  let res : Option (Tok × List Char) :=
    if command == "\\verb" || command == "\\verb*" then readVerbatim command pos
    else if command == "\\begin" then readBlockStart pos
    else if command == "\\end" then readBlockEnd pos
    else if command == "\\char" then readChar pos
    else some (.command command, skipWS pos)
  match res with
  | some tr => tr
  | none => (.text command, pos)

/-- tokenizer.go `readBackslash`: `none` is the end-of-input-after-backslash error
recovered in `Token`. -/
def readBackslash : List Char → Option (Tok × List Char)
  | [] => none
  | c :: rest =>
    if isCommandChar c then
      let (st, r) := star rest
      if st then some (.command ⟨['\\', c, '*']⟩, skipWS r)
      else some (.command ⟨['\\', c]⟩, skipWS r)
    else if isLetter c then some (readCommand (c :: rest))
    else some (.text ⟨[c]⟩, rest)

/-- tokenizer.go `Token`: `none` is end of input.  In this pure embedding the
underlying stream never fails, so `Token` never returns a hard error. -/
def token : List Char → Option (Tok × List Char)
  | [] => none
  | c :: rest =>
    if c == lbrace then some (.paramStart, rest)
    else if c == rbrace then some (.paramEnd, rest)
    else if c == '[' then some (.optStart, rest)
    else if c == ']' then some (.optEnd, rest)
    else if c == '&' || c == '~' || c == '#' || c == '^' || c == '_' then
      some (.symbol ⟨[c]⟩, rest)
    else if c == backquote || c == apos || c == '-' || c == '<' || c == '>' then
      some (readLigature c rest)
    else if c == '%' then some (readLineCommentLoop [] rest)
    else if c == '$' then some (readMath rest)
    else if c == '\\' then
      match readBackslash rest with
      | some tr => some tr
      | none => some (.text ⟨[c]⟩, rest)
    else if isSpecial c then some (.symbol ⟨[c]⟩, rest)
    else some (readText [] (c :: rest))


/-! ## The document tree (Node), part_002 -/

/-- The node kinds of the `Node` tree. -/
inductive NKind
  | text
  | document
  | element
deriving DecidableEq, Repr

/-- The document tree node (part_002 `Node`). -/
structure Node where
  kind : NKind
  data : String
  params : List (String × String)
  children : List Node
deriving Repr

/-- A text leaf. -/
def Node.textN (s : String) : Node := ⟨.text, s, [], []⟩

/-- An element without parameters. -/
def Node.elemN (d : String) (cs : List Node) : Node := ⟨.element, d, [], cs⟩

/-- An element with parameters. -/
def Node.elemP (d : String) (ps : List (String × String)) (cs : List Node) : Node :=
  ⟨.element, d, ps, cs⟩

/-- The document root. -/
def Node.doc (cs : List Node) : Node := ⟨.document, "", [], cs⟩

/-- Association list update, modelling assignment into a Go map. -/
def insertKV (m : List (String × String)) (k v : String) : List (String × String) :=
  if m.any (fun p => p.1 == k) then m.map (fun p => if p.1 == k then (k, v) else p)
  else m ++ [(k, v)]

/-- Association list lookup, modelling Go map indexing. -/
def lookupKV (m : List (String × String)) (k : String) : Option String :=
  (m.find? (fun p => p.1 == k)).map (fun p => p.2)

/-- symbols.go `symbol`. -/
def symbolStr (a : String) : String :=
  if a == "---" then "—"
  else if a == "--" then "–"
  else if a == "<<" then "«"
  else if a == ">>" then "»"
  else if a == "''" || a == "\x60\x60" then "\""
  else if a == "'" || a == "\x60" then "'"
  else if a == "&" then ""
  else if a == "~" then "\u00A0"
  else a

/-- replacements.go `replacements`: the static glyph table for command fallback. -/
def replacements : List (String × String) := [
  ("\\textwidth", ""),
  ("\\space", " "),
  ("\\nobreakspace", "\u00A0"),
  ("\\thinspace", "\u2009"),
  ("\\enspace", "\u2002"),
  ("\\enskip", "\u2002"),
  ("\\quad", "\u2003"),
  ("\\qquad", "\u2003\u2003"),
  ("\\textvisiblespace", "\u2423"),
  ("\\textcompwordmark", "\u200C"),
  ("\\textdollar", "$"),
  ("\\slash", "/"),
  ("\\textless", "<"),
  ("\\textgreater", ">"),
  ("\\textbackslash", "\\"),
  ("\\textasciicircum", "^"),
  ("\\textunderscore", "_"),
  ("\\lbrack", "["),
  ("\\rbrack", "]"),
  ("\\textbraceleft", "\u007B"),
  ("\\textbraceright", "\u007D"),
  ("\\textasciitilde", "\u00CB\u009C"),
  ("\\AA", "\u00C5"),
  ("\\aa", "\u00E5"),
  ("\\AE", "\u00C6"),
  ("\\ae", "\u00E6"),
  ("\\OE", "\u0152"),
  ("\\oe", "\u0153"),
  ("\\DH", "\u00D0"),
  ("\\dh", "\u00F0"),
  ("\\DJ", "\u0110"),
  ("\\dj", "\u0111"),
  ("\\NG", "\u014A"),
  ("\\ng", "\u014B"),
  ("\\TH", "\u00DE"),
  ("\\th", "\u00FE"),
  ("\\O", "\u00D8"),
  ("\\o", "\u00F8"),
  ("\\i", "\u0131"),
  ("\\j", "\u0237"),
  ("\\L", "\u0141"),
  ("\\l", "\u0142"),
  ("\\IJ", "\u0132"),
  ("\\ij", "\u0133"),
  ("\\SS", "\u1E9E"),
  ("\\ss", "\u00DF"),
  ("\\textquotesingle", "\""),
  ("\\textquoteleft", "\u2018"),
  ("\\lq", "\u2018"),
  ("\\textquoteright", "\u2019"),
  ("\\rq", "\u2019"),
  ("\\textquotedbl", "\""),
  ("\\textquotedblleft", "\u201C"),
  ("\\textquotedblright", "\u201D"),
  ("\\quotesinglbase", "\u201A"),
  ("\\quotedblbase", "\u201E"),
  ("\\guillemotleft", "\u00AB"),
  ("\\guillemotright", "\u00BB"),
  ("\\guilsinglleft", "\u2039"),
  ("\\guilsinglright", "\u203A"),
  ("\\textasciigrave", "\u0060"),
  ("\\textgravedbl", "\u02F5"),
  ("\\textasciidieresis", "\u00A8"),
  ("\\textasciiacute", "\u00B4"),
  ("\\textacutedbl", "\u02DD"),
  ("\\textasciimacron", "\u00AF"),
  ("\\textasciicaron", "\u02C7"),
  ("\\textasciibreve", "\u02D8"),
  ("\\texttildelow", "\u02F7"),
  ("\\textendash", "\u2013"),
  ("\\textemdash", "\u2014"),
  ("\\textellipsis", "\u2026"),
  ("\\dots", "\u2026"),
  ("\\ldots", "\u2026"),
  ("\\textbullet", "\u2022"),
  ("\\textopenbullet", "\u25E6"),
  ("\\textperiodcentered", "\u00B7"),
  ("\\textdagger", "\u2020"),
  ("\\dag", "\u2020"),
  ("\\textdaggerdbl", "\u2021"),
  ("\\ddag", "\u2021"),
  ("\\textexclamdown", "\u00A1"),
  ("\\textquestiondown", "\u00BF"),
  ("\\textinterrobang", "\u203D"),
  ("\\textinterrobangdown", "\u2E18"),
  ("\\textsection", "\u00A7"),
  ("\\S", "\u00A7"),
  ("\\textparagraph", "\u00B6"),
  ("\\P", "\u00B6"),
  ("\\textblank", "\u2422"),
  ("\\textlquill", "\u2045"),
  ("\\textrquill", "\u2046"),
  ("\\textlangle", "\u2329"),
  ("\\textrangle", "\u232A"),
  ("\\textlbrackdbl", "\u301A"),
  ("\\textrbrackdbl", "\u301B"),
  ("\\textcopyright", "\u00C2\u00A9"),
  ("\\copyright", "\u00C2\u00A9"),
  ("\\textregistered", "\u00AE"),
  ("\\textcircledP", "\u2117"),
  ("\\textservicemark", "\u2120"),
  ("\\texttrademark", "\u2122"),
  ("\\textmarried", "\u26AD"),
  ("\\textdivorced", "\u26AE"),
  ("\\textordfeminine", "\u00AA"),
  ("\\textordmasculine", "\u00BA"),
  ("\\textdegree", "\u00B0"),
  ("\\textmu", "\u00B5"),
  ("\\textbar", "|"),
  ("\\textbardbl", "\u2016"),
  ("\\textbrokenbar", "\u00A6"),
  ("\\textreferencemark", "\u203B"),
  ("\\textdiscount", "\u2052"),
  ("\\textcelsius", "\u2103"),
  ("\\textnumero", "\u2116"),
  ("\\textrecipe", "\u211E"),
  ("\\textestimated", "\u212E"),
  ("\\textbigcircle", "\u25EF"),
  ("\\textmusicalnote", "\u266A"),
  ("\\textohm", "\u2126"),
  ("\\textmho", "\u2127"),
  ("\\textleftarrow", "\u2190"),
  ("\\textuparrow", "\u2191"),
  ("\\textrightarrow", "\u2192"),
  ("\\textdownarrow", "\u2193"),
  ("\\textperthousand", "\u2030"),
  ("\\textpertenthousand", "\u2031"),
  ("\\textonehalf", "\u00BD"),
  ("\\textthreequarters", "\u00BE"),
  ("\\textonequarter", "\u00BC"),
  ("\\textfractionsolidus", "\u2044"),
  ("\\textdiv", "\u00F7"),
  ("\\texttimes", "\u00D7"),
  ("\\textminus", "\u2212"),
  ("\\textasteriskcentered", "\u2217"),
  ("\\textpm", "\u00B1"),
  ("\\textsurd", "\u221A"),
  ("\\textlnot", "\u00AC"),
  ("\\textonesuperior", "\u00B9"),
  ("\\texttwosuperior", "\u00B2"),
  ("\\textthreesuperior", "\u00B3"),
  ("\\texteuro", "\u00E2\u0082\u00AC"),
  ("\\textcent", "\u00C2\u00A2"),
  ("\\textsterling", "\u00C2\u00A3"),
  ("\\pounds", "\u00C2\u00A3"),
  ("\\textbaht", "\u0E3F"),
  ("\\textcolonmonetary", "\u20A1"),
  ("\\textcurrency", "\u00A4"),
  ("\\textdong", "\u20AB"),
  ("\\textflorin", "\u0192"),
  ("\\textlira", "\u20A4"),
  ("\\textnaira", "\u20A6"),
  ("\\textpeso", "\u20B1"),
  ("\\textwon", "\u20A9"),
  ("\\textyen", "\u00A5")
]

/-! ## Parser state and helpers (part_005, second revision: the one with strict mode) -/

/-- Parser errors: end of input (Go `io.EOF`) or a message (`errors.New`/`fmt.Errorf`). -/
inductive PErr
  | eof
  | msg (s : String)
deriving DecidableEq, Repr

/-- How Go prints an error when wrapping it with `fmt.Errorf("...: %w", err)`. -/
def PErr.toMsg : PErr → String
  | .eof => "EOF"
  | .msg s => s

/-- `fmt.Errorf("<pre>%w", err)`. -/
def wrapErr (pre : String) (e : PErr) : PErr := .msg (pre ++ e.toMsg)

/-- Error used when the evaluation fuel runs out (never reached with enough fuel). -/
def fuelErr : PErr := .msg "out of fuel"

/-- The mutable parser state: the strict flag, the `\def` substitution table and the
remaining input of the tokenizer. -/
structure PState where
  strict : Bool
  defs : List (String × String)
  input : List Char
deriving Repr

/-- Result of `Parser.vertical`: the Go function has named results mutated by a deferred
flush, so even its error returns carry the children flushed from the floating paragraph. -/
structure VRes where
  children : List Node
  last : Option Tok
  err : Option PErr
deriving Repr

/-- The `identifier` regular expression `^\\[a-zA-Z]+$` of part_005. -/
def isIdentifier (s : String) : Bool :=
  match s.data with
  | '\\' :: rest => !rest.isEmpty && rest.all isLetter
  | _ => false

/-- Modelled from the spec: `isNewline` is referenced by `Parser.tabular` but its
definition is not under src/; per spec §4.2 the row-break command family is
`\\`, `\\*` and `\newline`. -/
def isNewline (c : String) : Bool :=
  c == "\\\\" || c == "\\\\*" || c == "\\newline"

/-- string.go `String`: the concatenated text content of a node (fuel drives the
recursion through the nested children lists). -/
def stringGo : Nat → Node → String
  | 0, _ => ""
  | fuel + 1, n =>
    if n.kind == .text then n.data
    else n.children.foldl (fun acc c => acc ++ stringGo fuel c) ""

/-- Modelled from the spec: `stringify` is referenced by `optionString` and
`parameterString` but its definition is not under src/; per spec §4.2 it turns the
collected parameter nodes into their plain string content, which on each node is what
string.go `String` computes. -/
def stringify (fuel : Nat) (nodes : List Node) : String :=
  nodes.foldl (fun acc n => acc ++ stringGo fuel n) ""

/-- The scan of `Tokenizer.Verbatim` as used by `parameterVerbatim`/`optionVerbatim`:
read to the first unescaped delimiter `d` (consumed) or end of input, keeping
backslashes in the output. -/
def scanEscapedTo (d : Char) : Bool → List Char → List Char × List Char
  | _, [] => ([], [])
  | esc, c :: rest =>
    if esc then
      let (a, r) := scanEscapedTo d false rest
      (c :: a, r)
    else if c == '\\' then
      let (a, r) := scanEscapedTo d true rest
      (c :: a, r)
    else if c == d then ([], rest)
    else
      let (a, r) := scanEscapedTo d false rest
      (c :: a, r)

/-- One `strings.ReplaceAll` pass for a two-character pattern `\<p2>` replaced by the
single character `sub`. -/
def replaceEsc (p2 sub : Char) : List Char → List Char
  | [] => []
  | [c] => [c]
  | c1 :: c2 :: rest =>
    if c1 == '\\' && c2 == p2 then sub :: replaceEsc p2 sub rest
    else c1 :: replaceEsc p2 sub (c2 :: rest)

/-- The `escSeq` replacement table of part_005 applied with `strings.ReplaceAll`.
The Go code iterates a map in unspecified order; the passes are applied here in the
order of the map literal (`\\`, `\{`, `\}`, `\[`, `\]`), which only matters for inputs
mixing the escape pairs. -/
def escSeqApply (s : String) : String :=
  ⟨replaceEsc ']' ']'
    (replaceEsc '[' '['
      (replaceEsc rbrace rbrace
        (replaceEsc lbrace lbrace
          (replaceEsc '\\' '\\' s.data))))⟩

/-- part_005 `optionVerbatim`: read an optional `[...]` parameter verbatim, with
escape handling and the `escSeq` replacements.  (If the next character is `[`,
`Token()` necessarily returns `OptionalStart` consuming exactly that character.) -/
def optionVerbatim (st : PState) : (String × Bool) × PState :=
  match st.input with
  | [] => (("", false), st)
  | c :: rest =>
    if c == '[' then
      let (a, r) := scanEscapedTo ']' false rest
      ((escSeqApply ⟨a⟩, true), { st with input := r })
    else (("", false), st)

/-- part_005 `parameterVerbatim`: skip whitespace, then read a `{...}` parameter
verbatim with escape handling and the `escSeq` replacements. -/
def parameterVerbatim (st : PState) : (String × Bool) × PState :=
  let st1 : PState := { st with input := skipWS st.input }
  match st1.input with
  | [] => (("", false), st1)
  | c :: rest =>
    if c == lbrace then
      let (a, r) := scanEscapedTo rbrace false rest
      ((escSeqApply ⟨a⟩, true), { st1 with input := r })
    else (("", false), st1)

/-- The scan of part_005 `verbatimEnvironment`: accumulate every rune (the stop
callback appends before testing, so at end of input Go appends the zero rune) until
the accumulated content ends with the closing `\end{name}`. -/
def scanSuffix (suffix : List Char) (acc : List Char) : List Char → List Char × List Char
  | [] => (acc ++ ['\x00'], [])
  | c :: rest =>
    let acc2 := acc ++ [c]
    if suffix.isSuffixOf acc2 then (acc2, rest) else scanSuffix suffix acc2 rest

/-- part_005 `verbatimEnvironment`. -/
def verbatimEnvironment (name : String) (st : PState) : Node × PState :=
  let suffix : String := ⟨"\\end".data ++ [lbrace] ++ name.data ++ [rbrace]⟩
  let st1 : PState := { st with input := skipEOL st.input }
  let (content, r) := scanSuffix suffix.data [] st1.input
  (Node.elemN name [Node.textN (trimSuffixStr ⟨content⟩ suffix)], { st1 with input := r })

/-- part_005 `lstListingEnvironment`. -/
def lstListingEnvironment (name : String) (st : PState) : Node × PState :=
  let ((opt, _), st1) := optionVerbatim st
  let (node, st2) := verbatimEnvironment name st1
  (if opt == "" then node else { node with params := [("options", opt)] }, st2)

/-- part_005 `def` (the `\def` handler). -/
def defCommand (st : PState) : (Except PErr (Option Node × Bool)) × PState :=
  match token st.input with
  | none => (.error (wrapErr "unable to read def identifier: " .eof), st)
  | some (t, rest) =>
    let st1 : PState := { st with input := rest }
    match t with
    | .command key =>
      if isIdentifier key then
        let ((v, _), st2) := parameterVerbatim st1
        (.ok (none, false), { st2 with defs := insertKV st2.defs key v })
      else (.error (.msg "def must be followed by identifier, for example: \\xyz, got "), st1)
    | _ => (.error (.msg "def must be followed by identifier, for example: \\xyz, got "), st1)

/-- Go `strconv.Atoi` as used by `heading`; the 64-bit range error is not modelled
because any out-of-range value fails the 1..6 bound just as the error does. -/
def atoiGo (s : String) : Option Int :=
  let digits : List Char → Option Nat := fun ds =>
    if ds.isEmpty || ds.any (fun c => !(('0' ≤ c) && (c ≤ '9'))) then none
    else some (ds.foldl (fun a c => a * 10 + (c.toNat - '0'.toNat)) 0)
  match s.data with
  | '-' :: ds => (digits ds).map (fun n => -(n : Int))
  | '+' :: ds => (digits ds).map (fun n => (n : Int))
  | ds => (digits ds).map (fun n => (n : Int))

/-- Go `strconv.ParseInt(s, 10, 32)` with sign handling, for the `\symbol` handler. -/
def parseSignedInt32 (s : String) : Option Int :=
  let core : List Char → Nat → Option Nat := fun ds bound =>
    if ds.isEmpty || ds.any (fun c => !(('0' ≤ c) && (c ≤ '9'))) then none
    else
      let v := ds.foldl (fun a c => a * 10 + (c.toNat - '0'.toNat)) 0
      if v > bound then none else some v
  match s.data with
  | '-' :: ds => (core ds (2 ^ 31)).map (fun n => -(n : Int))
  | '+' :: ds => (core ds (2 ^ 31 - 1)).map (fun n => (n : Int))
  | ds => (core ds (2 ^ 31 - 1)).map (fun n => (n : Int))

/-- part_005 `symbol` (the `\symbol` handler); the wrapped strconv error text is
abstracted to the parameter value. -/
def symbolCommand (st : PState) : (Except PErr (Option Node × Bool)) × PState :=
  let ((v, _), st1) := parameterVerbatim st
  match parseSignedInt32 v with
  | none => (.error (.msg ("symbol command must take an integer as parameter: " ++ v)), st1)
  | some code =>
    let ch := if 0 ≤ code then runeToChar code.toNat else runeToChar 0x110000
    (.ok (some (Node.textN ⟨[ch]⟩), true), st1)

/-- part_005 `graphics` (the `\includegraphics` handler). -/
def graphicsGo (c : String) (st : PState) : (Except PErr (Option Node × Bool)) × PState :=
  let ((options, ok1), st1) := optionVerbatim st
  let ((src, ok2), st2) := parameterVerbatim st1
  let params := (if ok1 then [("options", options)] else []) ++
    (if ok2 then [("src", src)] else [])
  (.ok (some (Node.elemP c params []), false), st2)

/-- part_005 `media` (the `\includemedia` handler, same shape as `graphics`). -/
def mediaGo (c : String) (st : PState) : (Except PErr (Option Node × Bool)) × PState :=
  graphicsGo c st

/-- part_005 `url`. -/
def urlGo (c : String) (st : PState) : (Except PErr (Option Node × Bool)) × PState :=
  let ((href, _), st1) := parameterVerbatim st
  (.ok (some (Node.elemP c [("href", href)] []), true), st1)

/-- part_005 `user`. -/
def userGo (c : String) (st : PState) : (Except PErr (Option Node × Bool)) × PState :=
  let ((v, _), st1) := parameterVerbatim st
  (.ok (some (Node.elemP c [("nickname", v)] []), true), st1)

/-- part_005 `vspace`. -/
def vspaceGo (c : String) (st : PState) : (Except PErr (Option Node × Bool)) × PState :=
  let ((v, _), st1) := parameterVerbatim st
  (.ok (some (Node.elemP c [("height", v)] []), false), st1)

/-- part_005 `hspace`. -/
def hspaceGo (c : String) (st : PState) : (Except PErr (Option Node × Bool)) × PState :=
  let ((v, _), st1) := parameterVerbatim st
  (.ok (some (Node.elemP c [("width", v)] []), false), st1)

/-- part_005 `exmp`. -/
def exmpGo (c : String) (st : PState) : (Except PErr (Option Node × Bool)) × PState :=
  let ((i, _), st1) := parameterVerbatim st
  let ((o, _), st2) := parameterVerbatim st1
  (.ok (some (Node.elemP c [("input", i), ("output", o)] []), false), st2)

/-- part_005 `exmpfile`. -/
def exmpfileGo (c : String) (st : PState) : (Except PErr (Option Node × Bool)) × PState :=
  let ((i, _), st1) := parameterVerbatim st
  let ((o, _), st2) := parameterVerbatim st1
  let ((nm, _), st3) := parameterVerbatim st2
  (.ok (some (Node.elemP c [("input", i), ("output", o), ("name", nm)] []), false), st3)

/-- part_005 `eatATab`: skip whitespace and consume one following `&`. -/
def eatATab (st : PState) : (Except PErr Unit) × PState :=
  let st1 : PState := { st with input := skipWS st.input }
  match st1.input with
  | [] => (.error .eof, st1)
  | c :: rest =>
    if c == '&' then
      match token (c :: rest) with
      | some (_, r) => (.ok (), { st1 with input := r })
      | none => (.error .eof, st1)
    else (.ok (), st1)

/-- The fixed parameter-key sequence reader of part_005 `problem`/`tutorial`. -/
def problemParams : List String → List (String × String) → PState →
    List (String × String) × PState
  | [], acc, st => (acc, st)
  | k :: ks, acc, st =>
    let ((v, ok), st1) := parameterVerbatim st
    if ok then problemParams ks (acc ++ [(k, v)]) st1 else (acc, st1)

/-- part_005 `verbatim` (the Verbatim-token conversion). -/
def verbTokNode (k d : String) : Except PErr (Option Node × Bool) :=
  if k == "$" then .ok (some (Node.elemN "$" [Node.textN d]), true)
  else if k == "$$" then .ok (some (Node.elemN "$$" [Node.textN d]), false)
  else if k == "%" || k == "comment" then .ok (none, false)
  else if k == "\\verb" || k == "\\verb*" then .ok (some (Node.elemN k [Node.textN d]), true)
  else if k == "verbatim" || k == "lstlisting" then
    .ok (some (Node.elemN k [Node.textN d]), false)
  else .error (.msg ("unknown verbatim \"" ++ k ++ "\""))

/-- The block-producing command names of part_005 `command` (converted with
`inline = false`). -/
def blockCommands : List String :=
  ["\\par", "\\\\", "\\\\*", "\\newline", "\\InputFile", "\\InputData", "\\OutputFile",
   "\\Note", "\\Scoring", "\\Interaction", "\\Example", "\\Examples", "\\hline", "\\hrule"]

/-- The inline glyph command names of part_005 `command`. -/
def inlineGlyphCommands : List String :=
  ["\\dots", "\\ldots", "\\cdots", "\\vdots", "\\ddots", "\\hskip", "\\vskip"]

/-- The text-formatting command names of part_005 `command`. -/
def formatCommands : List String :=
  ["\\underline", "\\emph", "\\sout", "\\textmd", "\\textbf", "\\textup", "\\textit",
   "\\textsl", "\\textsc", "\\textsf", "\\textrm", "\\bf", "\\it", "\\t", "\\tt",
   "\\texttt", "\\tiny", "\\scriptsize", "\\small", "\\normalsize", "\\large",
   "\\Large", "\\LARGE", "\\huge", "\\Huge", "\\bfseries", "\\itshape"]

/-- The sectioning command names of part_005 `command` (also handled by `format`). -/
def sectionCommands : List String :=
  ["\\title", "\\chapter", "\\section", "\\subsection", "\\subsubsection",
   "\\subsubsubsection", "\\caption"]

/-- The name `{}` of the synthetic bare-group element. -/
def groupName : String := ⟨[lbrace, rbrace]⟩

/-- Stop predicate of `Parser.Parse`: stop at end of input. -/
def stopEOF : Option Tok → Bool := fun t => t.isNone

/-- Stop predicate for bare groups and `parameter`: an (unnested) `}`. -/
def stopParamEnd : Option Tok → Bool
  | some .paramEnd => true
  | _ => false

/-- Stop predicate for `option`: an `]`. -/
def stopOptEnd : Option Tok → Bool
  | some .optEnd => true
  | _ => false

/-- Stop predicate for environments: the matching `\end{name}`. -/
def stopEnvEnd (name : String) : Option Tok → Bool
  | some (.envEnd n) => n == name
  | _ => false

/-- Stop predicate for `list`/`tabs`: the matching `\end{name}` or `\item`. -/
def stopList (name : String) : Option Tok → Bool
  | some (.envEnd n) => n == name
  | some (.command c) => c == "\\item"
  | _ => false

/-- Stop predicate for `tabular`. -/
def stopTabular (name : String) : Option Tok → Bool
  | some (.envEnd n) => n == name
  | some (.symbol s) => s == "&"
  | some (.command c) =>
    isNewline c || c == "\\hline" || c == "\\cline" || c == "\\multirow" ||
      c == "\\multicolumn"
  | _ => false

/-- Text-merging append shared by `horizontal` and `vertical`: a text node merges
into a trailing text node. -/
def appendMerged (acc : List Node) (node : Node) : List Node :=
  if node.kind == .text then
    match acc.getLast? with
    | some l =>
      if l.kind == .text then acc.dropLast ++ [{ l with data := l.data ++ node.data }]
      else acc ++ [node]
    | none => acc ++ [node]
  else acc ++ [node]

/-- The `flush` closure of `Parser.vertical`: a non-empty floating paragraph becomes
one `\par` element. -/
def flushPar (floating : List Node) : List Node :=
  if floating.isEmpty then [] else [Node.elemN "\\par" floating]

/-- The `addCell` closure of `Parser.tabular`: a cell is appended only when the
collected nodes are non-empty. -/
def addCell (nodes : List Node) (params : List (String × String)) (hanging : List Node) :
    List Node :=
  if nodes.isEmpty then hanging else hanging ++ [Node.elemP "\\cell" params nodes]

/-- The `addHanging` closure of `Parser.tabular`: the hanging row is appended only
when it has at least one cell. -/
def addHanging (rows hanging : List Node) : List Node × List Node :=
  if hanging.isEmpty then (rows, hanging) else (rows ++ [Node.elemN "\\row" hanging], [])

/-- part_005 `parse` for the bare-group (`{...}`) reclassification step. -/
def classifyGroup (children : List Node) : Except PErr (Option Node × Bool) :=
  match children with
  | [] => .ok (some (Node.textN ""), true)
  | [node] =>
    if node.kind == .element && node.data == "\\par" then
      match node.children with
      | fc :: others =>
        if fc.kind == .element && isIdentifier fc.data && fc.children.isEmpty then
          .ok (some (Node.elemN fc.data others), true)
        else .ok (some (Node.elemN groupName node.children), true)
      | [] => .ok (some (Node.elemN groupName []), true)
    else .ok (some node, false)
  | cs => .ok (some (Node.elemN groupName cs), false)

mutual

/-- part_005 `parse`: token-to-node conversion. -/
def parseTok : Nat → Tok → PState → (Except PErr (Option Node × Bool)) × PState
  | 0, _, st => (.error fuelErr, st)
  | fuel + 1, t, st =>
    match t with
    | .text s => (.ok (some (Node.textN s), true), st)
    | .symbol s => (.ok (some (Node.textN (symbolStr s)), true), st)
    | .command c => commandGo fuel c st
    | .verbatim k d _ => (verbTokNode k d, st)
    | .optStart => (.ok (some (Node.textN "["), true), st)
    | .optEnd => (.ok (some (Node.textN "]"), true), st)
    | .envStart n => environmentGo fuel n st
    | .paramStart =>
      let r := verticalGo fuel stopParamEnd [] [] false st
      match r.1.err with
      | some e => (.error e, r.2)
      | none => (classifyGroup r.1.children, r.2)
    | .paramEnd => (.error (.msg "unexpected token latex.ParameterEnd"), st)
    | .envEnd _ => (.error (.msg "unexpected token latex.EnvironmentEnd"), st)

/-- part_005 `command`: dispatch on the command name. -/
def commandGo : Nat → String → PState → (Except PErr (Option Node × Bool)) × PState
  | 0, _, st => (.error fuelErr, st)
  | fuel + 1, c, st =>
    if c == "\\symbol" then symbolCommand st
    else if blockCommands.contains c then (.ok (some (Node.elemN c []), false), st)
    else if inlineGlyphCommands.contains c then (.ok (some (Node.elemN c []), true), st)
    else if formatCommands.contains c || sectionCommands.contains c then formatGo fuel c st
    else if c == "\\heading" then headingGo fuel c st
    else if c == "\\includegraphics" then graphicsGo c st
    else if c == "\\includemedia" then mediaGo c st
    else if c == "\\url" then urlGo c st
    else if c == "\\href" then hrefGo fuel c st
    else if c == "\\def" then defCommand st
    else if c == "\\epigraph" then epigraphGo fuel c st
    else if c == "\\vspace" then vspaceGo c st
    else if c == "\\hspace" then hspaceGo c st
    else if c == "\\exmp" then exmpGo c st
    else if c == "\\exmpfile" then exmpfileGo c st
    else if c == "\\multicolumn" || c == "\\cline" then (.ok (none, false), st)
    else if c == "\\user" then userGo c st
    else
      match lookupKV st.defs c with
      | some v => (.ok (some (Node.textN v), true), st)
      | none =>
        match lookupKV replacements c with
        | some v => (.ok (some (Node.textN v), true), st)
        | none => (.error (.msg ("unknown command " ++ c)), st)

/-- part_005 `environment`: dispatch on the environment name; unknown environments
fall back to the generic division handler. -/
def environmentGo : Nat → String → PState → (Except PErr (Option Node × Bool)) × PState
  | 0, _, st => (.error fuelErr, st)
  | fuel + 1, name, st =>
    if name == "center" || name == "example" || name == "figure" then
      divisionGo fuel name st
    else if name == "itemize" || name == "enumerate" then listGo fuel name st
    else if name == "tabs" then tabsGo fuel name st
    else if name == "tabular" then tabularGo fuel name st
    else if name == "problem" then problemGo fuel name st
    else if name == "tutorial" then tutorialGo fuel name st
    else if name == "wrapfigure" then wrapfigureGo fuel name st
    else if name == "comment" then
      let r := verbatimEnvironment name st
      (.ok (none, false), r.2)
    else if name == "lstlisting" then
      let r := lstListingEnvironment name st
      (.ok (some r.1, false), r.2)
    else if name == "verbatim" then
      let r := verbatimEnvironment name st
      (.ok (some r.1, false), r.2)
    else divisionGo fuel name st

/-- part_005 `format`: one rich-content parameter wrapped as an inline element. -/
def formatGo : Nat → String → PState → (Except PErr (Option Node × Bool)) × PState
  | 0, _, st => (.error fuelErr, st)
  | fuel + 1, c, st =>
    match parameterNodes fuel st with
    | (.error e, st1) => (.error e, st1)
    | (.ok (children, _), st1) => (.ok (some (Node.elemN c children), true), st1)

/-- part_005 `heading`: optional verbatim level (kept only when it parses as an
integer between 1 and 6, default "1"), then one rich-content parameter. -/
def headingGo : Nat → String → PState → (Except PErr (Option Node × Bool)) × PState
  | 0, _, st => (.error fuelErr, st)
  | fuel + 1, c, st =>
    let ((v, _), st1) := optionVerbatim st
    let lvl : String :=
      match atoiGo v with
      | some n => if 1 ≤ n && n ≤ 6 then toString n else "1"
      | none => "1"
    match parameterNodes fuel st1 with
    | (.error e, st2) => (.error e, st2)
    | (.ok (children, _), st2) =>
      (.ok (some (Node.elemP c [("level", lvl)] children), true), st2)

/-- part_005 `href`. -/
def hrefGo : Nat → String → PState → (Except PErr (Option Node × Bool)) × PState
  | 0, _, st => (.error fuelErr, st)
  | fuel + 1, c, st =>
    let ((href, _), st1) := parameterVerbatim st
    match parameterNodes fuel st1 with
    | (.error e, st2) => (.error e, st2)
    | (.ok (children, _), st2) =>
      (.ok (some (Node.elemP c [("href", href)] children), true), st2)

/-- part_005 `epigraph`. -/
def epigraphGo : Nat → String → PState → (Except PErr (Option Node × Bool)) × PState
  | 0, _, st => (.error fuelErr, st)
  | fuel + 1, c, st =>
    match parameterNodes fuel st with
    | (.error e, st1) => (.error (wrapErr "invalid epigraph text parameter: " e), st1)
    | (.ok (text, _), st1) =>
      match parameterNodes fuel st1 with
      | (.error e, st2) => (.error (wrapErr "invalid epigraph source parameter: " e), st2)
      | (.ok (source, _), st2) =>
        let node := Node.elemN c
          [Node.elemN "\\epigraph:text" text, Node.elemN "\\epigraph:source" source]
        (.ok (some node, false), st2)

/-- part_005 `division`: generic environment handler; in lenient mode an error with a
non-empty partial body yields the partial node. -/
def divisionGo : Nat → String → PState → (Except PErr (Option Node × Bool)) × PState
  | 0, _, st => (.error fuelErr, st)
  | fuel + 1, name, st =>
    let ((opt, _), st1) := optionVerbatim st
    let params := if opt == "" then [] else [("options", opt)]
    let r := verticalGo fuel (stopEnvEnd name) [] [] false st1
    match r.1.err with
    | some e =>
      if r.2.strict || r.1.children.isEmpty then (.error e, r.2)
      else (.ok (some (Node.elemP name params r.1.children), false), r.2)
    | none => (.ok (some (Node.elemP name params r.1.children), false), r.2)

/-- The item loop of part_005 `list`. -/
def listLoop : Nat → String → List Node → Bool → PState →
    (Except PErr (List Node)) × PState
  | 0, _, _, _, st => (.error fuelErr, st)
  | fuel + 1, name, items, itimized, st =>
    let r := verticalGo fuel (stopList name) [] [] false st
    match r.1.err with
    | some e => (.error e, r.2)
    | none =>
      let items1 := if itimized then items ++ [Node.elemN "\\item" r.1.children] else items
      match r.1.last with
      | some (.envEnd _) => (.ok items1, r.2)
      | _ => listLoop fuel name items1 true r.2

/-- part_005 `list`. -/
def listGo : Nat → String → PState → (Except PErr (Option Node × Bool)) × PState
  | 0, _, st => (.error fuelErr, st)
  | fuel + 1, name, st =>
    match listLoop fuel name [] false st with
    | (.error e, st1) => (.error e, st1)
    | (.ok items, st1) => (.ok (some (Node.elemN name items), false), st1)

/-- The item loop of part_005 `tabs`: like `list`, but a `{title}` parameter directly
after each `\item` is stored on the item. -/
def tabsLoop : Nat → String → List Node → Bool → List (String × String) → PState →
    (Except PErr (List Node)) × PState
  | 0, _, _, _, _, st => (.error fuelErr, st)
  | fuel + 1, name, items, itimized, attrs, st =>
    let r := verticalGo fuel (stopList name) [] [] false st
    match r.1.err with
    | some e => (.error e, r.2)
    | none =>
      let items1 :=
        if itimized then items ++ [Node.elemP "\\item" attrs r.1.children] else items
      let attrs1 : List (String × String) := if itimized then [] else attrs
      match r.1.last with
      | some (.command c) =>
        if c == "\\item" then
          match r.2.input.head? with
          | some ch =>
            if ch == lbrace then
              match parameterStr fuel r.2 with
              | (.error e, st2) => (.error e, st2)
              | (.ok (t, okb), st2) =>
                tabsLoop fuel name items1 true
                  (if okb then insertKV attrs1 "title" t else attrs1) st2
            else tabsLoop fuel name items1 true attrs1 r.2
          | none => tabsLoop fuel name items1 true attrs1 r.2
        else tabsLoop fuel name items1 itimized attrs1 r.2
      | some (.envEnd _) => (.ok items1, r.2)
      | _ => tabsLoop fuel name items1 itimized attrs1 r.2

/-- part_005 `tabs`. -/
def tabsGo : Nat → String → PState → (Except PErr (Option Node × Bool)) × PState
  | 0, _, st => (.error fuelErr, st)
  | fuel + 1, name, st =>
    match tabsLoop fuel name [] false [] st with
    | (.error e, st1) => (.error e, st1)
    | (.ok items, st1) => (.ok (some (Node.elemN name items), false), st1)

/-- The row/cell loop of part_005 `tabular`. -/
def tabularLoop : Nat → String → List Node → List Node → PState →
    (Except PErr (List Node)) × PState
  | 0, _, _, _, st => (.error fuelErr, st)
  | fuel + 1, name, rows, hanging, st =>
    let r := verticalGo fuel (stopTabular name) [] [] false st
    match r.1.err with
    | some e => (.error e, r.2)
    | none =>
      match r.1.last with
      | some (.symbol s) =>
        if s == "&" then tabularLoop fuel name rows (addCell r.1.children [] hanging) r.2
        else tabularLoop fuel name rows hanging r.2
      | some (.command c) =>
        if isNewline c then
          let h1 := addCell r.1.children [] hanging
          let rh := addHanging rows h1
          tabularLoop fuel name rh.1 rh.2 r.2
        else if c == "\\multirow" then
          let ((num, _), st2) := parameterVerbatim r.2
          let ((width, _), st3) := parameterVerbatim st2
          match parameterNodes fuel st3 with
          | (.error e, st4) => (.error e, st4)
          | (.ok (text, _), st4) =>
            let h1 := addCell [Node.elemN "\\par" text]
              [("rowspan", num), ("width", width)] hanging
            match eatATab st4 with
            | (.error e, st5) => (.error e, st5)
            | (.ok _, st5) => tabularLoop fuel name rows h1 st5
        else if c == "\\multicolumn" then
          let ((num, _), st2) := parameterVerbatim r.2
          let ((align, _), st3) := parameterVerbatim st2
          match parameterNodes fuel st3 with
          | (.error e, st4) => (.error e, st4)
          | (.ok (text, _), st4) =>
            let h1 := addCell [Node.elemN "\\par" text]
              [("colspan", num), ("align", align)] hanging
            match eatATab st4 with
            | (.error e, st5) => (.error e, st5)
            | (.ok _, st5) => tabularLoop fuel name rows h1 st5
        else if c == "\\hline" then
          let rh := addHanging rows hanging
          tabularLoop fuel name (rh.1 ++ [Node.elemN "\\hline" []]) rh.2 r.2
        else if c == "\\cline" then
          let ((rng, _), st2) := parameterVerbatim r.2
          let rh := addHanging rows hanging
          tabularLoop fuel name (rh.1 ++ [Node.elemP "\\cline" [("range", rng)] []]) rh.2 st2
        else tabularLoop fuel name rows hanging r.2
      | some (.envEnd _) =>
        let h1 := addCell r.1.children [] hanging
        let rh := addHanging rows h1
        (.ok rh.1, r.2)
      | _ => tabularLoop fuel name rows hanging r.2

/-- part_005 `tabular`. -/
def tabularGo : Nat → String → PState → (Except PErr (Option Node × Bool)) × PState
  | 0, _, st => (.error fuelErr, st)
  | fuel + 1, name, st =>
    match optionStr fuel st with
    | (.error e, st1) =>
      (.error (wrapErr "unable to read tabular environment [pos] parameter: " e), st1)
    | (.ok (pos, _), st1) =>
      match parameterStr fuel st1 with
      | (.error e, st2) =>
        (.error (wrapErr (⟨"unable to read tabular environment ".data ++ [lbrace] ++
          "colspec".data ++ [rbrace] ++ " parameter: ".data⟩) e), st2)
      | (.ok (colspec, _), st2) =>
        match tabularLoop fuel name [] [] st2 with
        | (.error e, st3) => (.error e, st3)
        | (.ok rows, st3) =>
          let params :=
            if pos == "" then [("colspec", colspec)]
            else [("colspec", colspec), ("pos", pos)]
          (.ok (some (Node.elemP name params rows), false), st3)

/-- part_005 `problem`. -/
def problemGo : Nat → String → PState → (Except PErr (Option Node × Bool)) × PState
  | 0, _, st => (.error fuelErr, st)
  | fuel + 1, name, st =>
    let pp := problemParams ["title", "input", "output", "time_limit", "memory_limit"] [] st
    let r := verticalGo fuel (stopEnvEnd name) [] [] false pp.2
    match r.1.err with
    | some e => (.error e, r.2)
    | none => (.ok (some (Node.elemP name pp.1 r.1.children), false), r.2)

/-- part_005 `tutorial`. -/
def tutorialGo : Nat → String → PState → (Except PErr (Option Node × Bool)) × PState
  | 0, _, st => (.error fuelErr, st)
  | fuel + 1, name, st =>
    let pp := problemParams ["title"] [] st
    let r := verticalGo fuel (stopEnvEnd name) [] [] false pp.2
    match r.1.err with
    | some e => (.error e, r.2)
    | none => (.ok (some (Node.elemP name pp.1 r.1.children), false), r.2)

/-- part_005 `wrapfigure`. -/
def wrapfigureGo : Nat → String → PState → (Except PErr (Option Node × Bool)) × PState
  | 0, _, st => (.error fuelErr, st)
  | fuel + 1, name, st =>
    let ((lineheight, _), st1) := optionVerbatim st
    let ((position, _), st2) := parameterVerbatim st1
    let ((width, _), st3) := parameterVerbatim st2
    let params := [("position", position), ("width", width)] ++
      (if lineheight == "" then [] else [("lineheight", lineheight)])
    let r := verticalGo fuel (stopEnvEnd name) [] [] false st3
    match r.1.err with
    | some e => (.error e, r.2)
    | none => (.ok (some (Node.elemP name params r.1.children), false), r.2)

/-- part_005 `option`: an optional `[...]` parameter read in horizontal mode. -/
def optionNodes : Nat → PState → (Except PErr (List Node × Bool)) × PState
  | 0, st => (.error fuelErr, st)
  | fuel + 1, st =>
    match st.input with
    | [] => (.ok ([], false), st)
    | c :: rest =>
      if c == '[' then
        match horizontalGo fuel stopOptEnd [] { st with input := rest } with
        | (.error e, st1) => (.error e, st1)
        | (.ok val, st1) => (.ok (val, true), st1)
      else (.ok ([], false), st)

/-- part_005 `optionString`. -/
def optionStr : Nat → PState → (Except PErr (String × Bool)) × PState
  | 0, st => (.error fuelErr, st)
  | fuel + 1, st =>
    match optionNodes fuel st with
    | (.error e, st1) => (.error e, st1)
    | (.ok (_, false), st1) => (.ok ("", false), st1)
    | (.ok (val, true), st1) => (.ok (stringify fuel val, true), st1)

/-- part_005 `parameter`: a mandatory `{...}` parameter read in horizontal mode. -/
def parameterNodes : Nat → PState → (Except PErr (List Node × Bool)) × PState
  | 0, st => (.error fuelErr, st)
  | fuel + 1, st =>
    let st1 : PState := { st with input := skipWS st.input }
    match st1.input with
    | [] => (.ok ([], false), st1)
    | c :: rest =>
      if c == lbrace then
        match horizontalGo fuel stopParamEnd [] { st1 with input := rest } with
        | (.error e, st2) => (.error e, st2)
        | (.ok val, st2) => (.ok (val, true), st2)
      else (.ok ([], false), st1)

/-- part_005 `parameterString`. -/
def parameterStr : Nat → PState → (Except PErr (String × Bool)) × PState
  | 0, st => (.error fuelErr, st)
  | fuel + 1, st =>
    match parameterNodes fuel st with
    | (.error e, st1) => (.error e, st1)
    | (.ok (_, false), st1) => (.ok ("", false), st1)
    | (.ok (val, true), st1) => (.ok (stringify fuel val, true), st1)

/-- part_005 `horizontal`: collect inline nodes until the stop predicate fires on the
raw token; conversion errors and block nodes abort in strict mode and are skipped in
lenient mode. -/
def horizontalGo : Nat → (Option Tok → Bool) → List Node → PState →
    (Except PErr (List Node)) × PState
  | 0, _, _, st => (.error fuelErr, st)
  | fuel + 1, stop, acc, st =>
    match token st.input with
    | none =>
      if stop none then (.ok acc, st) else (.error .eof, st)
    | some (t, rest) =>
      let st1 : PState := { st with input := rest }
      if stop (some t) then (.ok acc, st1)
      else
        match parseTok fuel t st1 with
        | (.error e, st2) =>
          if st2.strict then (.error e, st2) else horizontalGo fuel stop acc st2
        | (.ok (none, _), st2) => horizontalGo fuel stop acc st2
        | (.ok (some node, inline), st2) =>
          if !inline then
            if st2.strict then (.error (.msg "block token in horizontal mode"), st2)
            else horizontalGo fuel stop acc st2
          else horizontalGo fuel stop (appendMerged acc node) st2

/-- part_005 `vertical`: stack block nodes and group inline nodes into floating
`\par` paragraphs; the deferred flush makes even error returns carry the pending
floating paragraph (and only it). -/
def verticalGo : Nat → (Option Tok → Bool) → List Node → List Node → Bool → PState →
    VRes × PState
  | 0, _, _, floating, _, st => (⟨flushPar floating, none, some fuelErr⟩, st)
  | fuel + 1, stop, children, floating, newline, st =>
    match token st.input with
    | none =>
      if stop none then (⟨children ++ flushPar floating, none, none⟩, st)
      else (⟨flushPar floating, none, some .eof⟩, st)
    | some (t, rest) =>
      let st1 : PState := { st with input := rest }
      if stop (some t) then (⟨children ++ flushPar floating, some t, none⟩, st1)
      else
        match parseTok fuel t st1 with
        | (.error e, st2) =>
          if st2.strict then (⟨flushPar floating, none, some e⟩, st2)
          else verticalGo fuel stop children floating newline st2
        | (.ok (none, _), st2) => verticalGo fuel stop children floating newline st2
        | (.ok (some node, inline), st2) =>
          if !inline then
            verticalGo fuel stop (children ++ flushPar floating ++ [node]) [] newline st2
          else
            let empty := node.kind == .text && trimSpaceStr node.data == "" &&
              hasSuffixStr node.data "\n"
            let isPar := node.kind == .element && node.data == "\\par" &&
              node.children.isEmpty
            if isPar || (newline && empty) then
              verticalGo fuel stop (children ++ flushPar floating) [] newline st2
            else
              let newline1 := node.kind == .text && hasSuffixStr node.data "\n"
              verticalGo fuel stop children (appendMerged floating node) newline1 st2

end

/-- part_005 `Parser.Parse`: run `vertical` to end of input; in lenient mode a
plain end-of-input error still yields a document. -/
def runParse (strict : Bool) (fuel : Nat) (s : String) : Except PErr Node :=
  let st : PState := ⟨strict, [], s.data⟩
  let r := verticalGo fuel stopEOF [] [] false st
  match r.1.err with
  | some e => if e == .eof && !strict then .ok (Node.doc r.1.children) else .error e
  | none => .ok (Node.doc r.1.children)

/-- part_005 `Parse` (lenient parser). -/
def parseDoc (fuel : Nat) (s : String) : Except PErr Node := runParse false fuel s

/-- part_005 `Strict` (strict parser). -/
def parseStrict (fuel : Nat) (s : String) : Except PErr Node := runParse true fuel s


/-! ## Renderer (render.go) -/

/-- Replace every occurrence of the character `f` by the string `t`
(`strings.ReplaceAll` for a one-character pattern). -/
def replace1 (f : Char) (t : List Char) : List Char → List Char
  | [] => []
  | c :: r => (if c == f then t else [c]) ++ replace1 f t r

/-- Modelled from the spec: the `specials` re-escape table used by render.go
`renderText` is not under src/; per spec §4.3 plain text nodes have "a fixed small
set of characters re-escaped".  The pairs are reconstructed from the renderer's
observable behavior in src/render_test.go: `%` becomes `\%`, a no-break space
becomes `~`, an em dash becomes `---` and an en dash becomes `--` (the pairs have
disjoint domains, so the unspecified Go map iteration order does not matter). -/
def specials : List (Char × String) :=
  [('%', "\\%"), ('\u00A0', "~"), ('\u2014', "---"), ('\u2013', "--")]

/-- render.go `renderText`. -/
def renderTextGo (s : String) : String :=
  ⟨specials.foldl (fun cs p => replace1 p.1 p.2.data cs) s.data⟩

/-- render.go `renderVerbatim`: the raw text content of a node, unescaped. -/
def renderRaw : Nat → Node → String
  | 0, _ => ""
  | fuel + 1, n =>
    (if n.kind == .text then n.data else "") ++
      n.children.foldl (fun acc c => acc ++ renderRaw fuel c) ""

/-- `\begin{name}`. -/
def beginEnv (name : String) : String := ⟨"\\begin".data ++ [lbrace] ++ name.data ++ [rbrace]⟩

/-- `\end{name}`. -/
def endEnv (name : String) : String := ⟨"\\end".data ++ [lbrace] ++ name.data ++ [rbrace]⟩

/-- `{s}`. -/
def braceWrap (s : String) : String := ⟨[lbrace] ++ s.data ++ [rbrace]⟩

/-- The element names render.go emits as `name{...}` wrappers. -/
def renderFormatCommands : List String :=
  ["\\underline", "\\emph", "\\sout", "\\textmd", "\\textbf", "\\textup", "\\textit",
   "\\textsl", "\\textsc", "\\textsf", "\\textrm", "\\bf", "\\it", "\\t", "\\tt",
   "\\texttt", "\\tiny", "\\scriptsize", "\\small", "\\normalsize", "\\large",
   "\\Large", "\\LARGE", "\\huge", "\\Huge", "\\section", "\\subsection",
   "\\subsubsection", "\\bfseries", "\\itshape"]

/-- render.go `render`/`renderElement`/`renderChildren` (fuel drives the recursion
through the nested children lists; with fuel at least the tree depth it is exact). -/
def renderF : Nat → Node → String
  | 0, _ => ""
  | fuel + 1, n =>
    match n.kind with
    | .document => n.children.foldl (fun acc c => acc ++ renderF fuel c) ""
    | .text => renderTextGo n.data
    | .element =>
      let d := n.data
      let childrenStr := n.children.foldl (fun acc c => acc ++ renderF fuel c) ""
      let raw := renderRaw (fuel + 1) n
      if d == "\\par" then childrenStr ++ "\n\n"
      else if d == "\\\\" || d == "\\\\*" || d == "\\newline" then d ++ "\n"
      else if ["\\InputFile", "\\InputData", "\\OutputFile", "\\Note", "\\Scoring",
          "\\Interaction", "\\Example", "\\Examples"].contains d then d ++ "\n\n"
      else if ["\\dots", "\\ldots", "\\cdots", "\\vdots", "\\ddots", "\\hskip",
          "\\vskip", "\\hline", "\\cline", "\\multicolumn", "\\vspace",
          "\\hspace"].contains d then d
      else if d == "\\epigraph" || d == "\\epigraph:text" || d == "\\epigraph:source" then ""
      else if d == "\\item" then "\\item " ++ childrenStr
      else if d == "\\verb" || d == "\\verb*" then
        let delim :=
          match lookupKV n.params "delimiter" with
          | some v => if v == "" then "|" else v
          | none => "|"
        d ++ delim ++ raw ++ delim
      else if d == "verbatim" then
        beginEnv "verbatim" ++ "\n" ++ raw ++ endEnv "verbatim"
      else if d == "lstlisting" then
        let ps :=
          match lookupKV n.params "options" with
          | some v => if v == "" then "" else "[" ++ v ++ "]"
          | none => ""
        beginEnv "verbatim" ++ ps ++ "\n" ++ raw ++ endEnv "verbatim"
      else if d == "tabular" then
        let colspec :=
          match lookupKV n.params "colspec" with
          | some v => if v == "" then "" else braceWrap v
          | none => ""
        let m := n.children.length
        let rowStrs := n.children.enum.map (fun p =>
          if p.2.kind == .element && p.2.data == "\\hline" then "\\hline"
          else trimSpaceStr (renderF fuel p.2) ++ (if p.1 == m - 1 then "" else " \\\\"))
        beginEnv "tabular" ++ colspec ++ "\n" ++ String.intercalate "\n" rowStrs ++
          "\n" ++ endEnv "tabular"
      else if ["itemize", "enumerate", "center", "example"].contains d then
        beginEnv d ++ "\n" ++ childrenStr ++ endEnv d
      else if d == groupName then childrenStr
      else if d == "\\row" then
        String.intercalate " & " (n.children.map (fun c => trimSpaceStr (renderF fuel c)))
      else if d == "\\cell" then childrenStr
      else if d == "$" then "$" ++ raw ++ "$"
      else if d == "$$" then "$$" ++ raw ++ "$$"
      else if d == "%" || d == "comment" then ""
      else if d == "\\symbol" then ""
      else if renderFormatCommands.contains d then
        d ++ braceWrap childrenStr
      else if d == "\\includegraphics" then
        let src := (lookupKV n.params "src").getD ""
        let ps :=
          match lookupKV n.params "options" with
          | some v => "[" ++ v ++ "]"
          | none => ""
        "\\includegraphics" ++ ps ++ braceWrap src
      else if d == "\\url" then "\\url" ++ braceWrap ((lookupKV n.params "href").getD "")
      else if d == "\\href" then
        "\\href" ++ braceWrap ((lookupKV n.params "href").getD "") ++ braceWrap childrenStr
      else if d == "\\def" || d == "\\exmp" || d == "\\exmpfile" then ""
      else if d == "\\user" then "\\user" ++ braceWrap ((lookupKV n.params "nickname").getD "")
      else ""

/-- render.go `Render` of a document node. -/
def renderDoc (fuel : Nat) (n : Node) : String := renderF fuel n


/-! ## Attribute micro-parser `KeyValue` and round-trip helpers -/

/-- Quote-aware splitting of an option string at top-level commas (commas inside a
`"`- or `'`-quoted value, where backslash escapes the next character, do not split). -/
def splitQuoted (quote : Option Char) (esc : Bool) (cur : List Char) :
    List Char → List (List Char)
  | [] => [cur]
  | c :: rest =>
    match quote with
    | some q =>
      if esc then splitQuoted quote false (cur ++ [c]) rest
      else if c == '\\' then splitQuoted quote true (cur ++ [c]) rest
      else if c == q then splitQuoted none false (cur ++ [c]) rest
      else splitQuoted quote false (cur ++ [c]) rest
    | none =>
      if c == ',' then cur :: splitQuoted none false [] rest
      else if c == '"' || c == apos then splitQuoted (some c) false (cur ++ [c]) rest
      else splitQuoted none false (cur ++ [c]) rest

/-- Split a pair at its first `=` (Go `strings.SplitN(part, "=", 2)`). -/
def splitEq (acc : List Char) : List Char → List Char × Option (List Char)
  | [] => (acc, none)
  | c :: rest => if c == '=' then (acc, some rest) else splitEq (acc ++ [c]) rest

/-- Remove the backslash of each backslash escape inside a quoted value. -/
def unescapeQ : Bool → List Char → List Char
  | _, [] => []
  | true, c :: rest => c :: unescapeQ false rest
  | false, c :: rest =>
    if c == '\\' then unescapeQ true rest else c :: unescapeQ false rest

/-- Strip a surrounding pair of `"` or `'` quotes and undo backslash escapes. -/
def unquoteVal (v : List Char) : List Char :=
  match v with
  | [] => []
  | c :: rest =>
    if (c == '"' || c == apos) && !rest.isEmpty && rest.getLast? == some c then
      unescapeQ false rest.dropLast
    else c :: rest

/-- Modelled from the spec: the current `KeyValue` implementation is not under src/
(src/attributes.go holds an earlier revision without quoted-value support whose
single-result signature does not even match the calls in src/attributes_test.go).
Per spec §6, `KeyValue(raw)` parses comma-separated `key=value` pairs with optional
quoted values (`"` or `'`, backslash-escaped quote/backslash) and lower-cased keys;
keys and values are trimmed of surrounding whitespace. -/
def KeyValue (raw : String) : List (String × String) :=
  (splitQuoted none false [] raw.data).foldl
    (fun kv part =>
      let p := trimSpaceStr ⟨part⟩
      let ke := splitEq [] p.data
      let key : String := ⟨(trimSpaceStr ⟨ke.1⟩).data.map Char.toLower⟩
      match ke.2 with
      | none => insertKV kv key ""
      | some v => insertKV kv key ⟨unquoteVal (trimSpaceStr ⟨v⟩).data⟩)
    []

/-- Right-trim of whitespace in text content, the normalization under which the
renderer/parser round trip preserves trees (spec §4.3: "only whitespace/ligature-
normalized equivalence"). -/
def trimRightWS (s : String) : String :=
  ⟨(s.data.reverse.dropWhile isSpaceGo).reverse⟩

/-- Apply `trimRightWS` to every text node of a tree. -/
def normalizeNode : Nat → Node → Node
  | 0, n => n
  | fuel + 1, n =>
    { n with
      data := if n.kind == .text then trimRightWS n.data else n.data,
      children := n.children.map (normalizeNode fuel) }

/-- Parse, render the result, and parse again (the composition of spec §8's
re-parse idempotence property). -/
def reparse (fuel : Nat) (s : String) : Except PErr Node :=
  match parseDoc fuel s with
  | .ok t => parseDoc fuel (renderDoc fuel t)
  | .error e => .error e

/-- `Except.map` of tree normalization, for stating normalized equivalence. -/
def normalizeResult (fuel : Nat) (r : Except PErr Node) : Except PErr Node :=
  r.map (normalizeNode fuel)


/-! ## Claims -/

/-- Projection used to separate the re-parsed tree from the original: the text
content of the first child of the document's second child. -/
def secondParText (r : Except PErr Node) : String :=
  match r with
  | .ok n =>
    match n.children.drop 1 with
    | p :: _ =>
      match p.children with
      | t :: _ => t.data
      | [] => ""
    | [] => ""
  | .error _ => ""

/-- A well-formed synthesized table cell: named `\cell` with non-empty content. -/
def cellOK (n : Node) : Prop := n.data = "\\cell" ∧ n.children ≠ []

/-- All nodes of a list are well-formed cells. -/
def cellsOK (l : List Node) : Prop := ∀ n ∈ l, cellOK n

/-- A table child that is a `\row` has at least one child and all its children are
well-formed cells. -/
def rowOK (n : Node) : Prop := n.data = "\\row" → n.children ≠ [] ∧ cellsOK n.children

/-- All nodes of a list satisfy `rowOK`. -/
def rowsOK (l : List Node) : Prop := ∀ n ∈ l, rowOK n

/-- The table produced by the C7 witness input. -/
def tabularWitnessNode : Node :=
  Node.elemP "tabular" [("colspec", "ll")]
    [Node.elemN "\\row"
      [Node.elemN "\\cell" [Node.elemN "\\par" [Node.textN "a "]],
       Node.elemN "\\cell" [Node.elemN "\\par" [Node.textN " b "]]],
     Node.elemN "\\row" [Node.elemN "\\cell" [Node.elemN "\\par" [Node.textN "c"]]]]

/-- Is a token a `Symbol` token. -/
def isSymbolTok : Tok → Bool
  | .symbol _ => true
  | _ => false

/-- Decidable form of the synthesized table-body invariant: every `\row` child has
at least one child and each of its children is a `\cell` with non-empty children. -/
def rowsWellFormed (l : List Node) : Bool :=
  l.all (fun r =>
    if r.data == "\\row" then
      !r.children.isEmpty &&
        r.children.all (fun c => c.data == "\\cell" && !c.children.isEmpty)
    else true)

/-- Decidable form of "the node carries a `level` parameter holding a decimal
integer between 1 and 6". -/
def levelWellFormed (n : Node) : Bool :=
  match lookupKV n.params "level" with
  | some l => (["1", "2", "3", "4", "5", "6"] : List String).contains l
  | none => false

/-- The propositional row invariant implies its decidable form. -/
theorem rowsOK_bool {l : List Node} (h : rowsOK l) : rowsWellFormed l = true := by
  unfold rowsWellFormed
  rw [List.all_eq_true]
  intro r hr
  by_cases hd : (r.data == "\\row") = true
  · rw [if_pos hd]
    obtain ⟨h1, h2⟩ := h r hr (by simpa using hd)
    rw [Bool.and_eq_true]
    constructor
    · simpa [List.isEmpty_iff] using h1
    · rw [List.all_eq_true]
      intro c hc
      obtain ⟨hc1, hc2⟩ := h2 c hc
      simp [hc1, List.isEmpty_iff, hc2]
  · rw [if_neg hd]

/-- A node whose parameters are exactly a `level` entry from the 1..6 range
satisfies `levelWellFormed`. -/
theorem levelWellFormed_elemP (c : String) (l : String) (children : List Node)
    (h : l ∈ (["1", "2", "3", "4", "5", "6"] : List String)) :
    levelWellFormed (Node.elemP c [("level", l)] children) = true := by
  unfold levelWellFormed
  rw [show lookupKV (Node.elemP c [("level", l)] children).params "level" = some l from by
    simp [lookupKV, Node.elemP]]
  simpa using h

/-- `addCell` preserves cell well-formedness: a cell is only ever appended with
non-empty content. -/
theorem cellsOK_addCell {hanging : List Node} (nodes : List Node)
    (ps : List (String × String)) (h : cellsOK hanging) :
    cellsOK (addCell nodes ps hanging) := by
  unfold addCell
  split
  · exact h
  · rename_i hne
    intro n hn
    rcases List.mem_append.mp hn with h1 | h1
    · exact h n h1
    · rw [List.mem_singleton] at h1
      subst h1
      refine ⟨rfl, fun hnil => ?_⟩
      rw [show (Node.elemP "\\cell" ps nodes).children = nodes from rfl] at hnil
      subst hnil
      simp at hne

/-- `addHanging` preserves row well-formedness: a `\row` is only ever appended with
at least one well-formed cell. -/
theorem addHanging_rowsOK {rows hanging : List Node} (hr : rowsOK rows)
    (hh : cellsOK hanging) : rowsOK (addHanging rows hanging).1 := by
  unfold addHanging
  split
  · exact hr
  · rename_i hne
    intro n hn
    rcases List.mem_append.mp hn with h1 | h1
    · exact hr n h1
    · rw [List.mem_singleton] at h1
      subst h1
      intro _
      refine ⟨fun hnil => ?_, hh⟩
      rw [show (Node.elemN "\\row" hanging).children = hanging from rfl] at hnil
      subst hnil
      simp at hne

/-- After `addHanging` the hanging row only holds well-formed cells. -/
theorem addHanging_cellsOK {rows hanging : List Node} (hh : cellsOK hanging) :
    cellsOK (addHanging rows hanging).2 := by
  unfold addHanging
  split
  · exact hh
  · intro n hn
    simp at hn

/-- Appending a non-`\row` marker (an `\hline` or `\cline` row) preserves `rowsOK`. -/
theorem rowsOK_append_marker {rows : List Node} (hr : rowsOK rows) (n : Node)
    (hn : ¬ n.data = "\\row") : rowsOK (rows ++ [n]) := by
  intro m hm
  rcases List.mem_append.mp hm with h1 | h1
  · exact hr m h1
  · rw [List.mem_singleton] at h1
    subst h1
    exact fun hd => absurd hd hn

/-- The row/cell invariant is preserved through the whole `tabular` loop. -/
theorem tabularLoop_rowsOK : ∀ (fuel : Nat) (name : String) (rows hanging : List Node)
    (st : PState) (out : List Node) (st2 : PState),
    tabularLoop fuel name rows hanging st = (.ok out, st2) →
    rowsOK rows → cellsOK hanging → rowsOK out := by
  intro fuel
  induction fuel with
  | zero =>
    intro name rows hanging st out st2 h
    simp [tabularLoop] at h
  | succ fuel ih =>
    intro name rows hanging st out st2 h hr hh
    unfold tabularLoop at h
    rcases hv : verticalGo fuel (stopTabular name) [] [] false st with ⟨vres, stv⟩
    rw [hv] at h
    rcases vres with ⟨vchildren, vlast, verr⟩
    dsimp only at h
    cases verr with
    | some e => simp at h
    | none =>
      cases vlast with
      | none => exact ih _ _ _ _ _ _ h hr hh
      | some t =>
        cases t with
        | text s => exact ih _ _ _ _ _ _ h hr hh
        | command c =>
          dsimp only at h
          by_cases hnl : isNewline c = true
          · rw [if_pos hnl] at h
            exact ih _ _ _ _ _ _ h (addHanging_rowsOK hr (cellsOK_addCell _ _ hh))
              (addHanging_cellsOK (cellsOK_addCell _ _ hh))
          · rw [if_neg hnl] at h
            by_cases hmr : (c == "\\multirow") = true
            · rw [if_pos hmr] at h
              rcases hp1 : parameterVerbatim stv with ⟨⟨num, ok1⟩, stp1⟩
              rw [hp1] at h
              dsimp only at h
              rcases hp2 : parameterVerbatim stp1 with ⟨⟨width, ok2⟩, stp2⟩
              rw [hp2] at h
              dsimp only at h
              rcases hp3 : parameterNodes fuel stp2 with ⟨res3, stp3⟩
              rw [hp3] at h
              cases res3 with
              | error e => simp at h
              | ok v3 =>
                rcases v3 with ⟨text3, ok3⟩
                dsimp only at h
                rcases he : eatATab stp3 with ⟨rese, ste⟩
                rw [he] at h
                cases rese with
                | error e => simp at h
                | ok u => exact ih _ _ _ _ _ _ h hr (cellsOK_addCell _ _ hh)
            · rw [if_neg hmr] at h
              by_cases hmc : (c == "\\multicolumn") = true
              · rw [if_pos hmc] at h
                rcases hp1 : parameterVerbatim stv with ⟨⟨num, ok1⟩, stp1⟩
                rw [hp1] at h
                dsimp only at h
                rcases hp2 : parameterVerbatim stp1 with ⟨⟨align, ok2⟩, stp2⟩
                rw [hp2] at h
                dsimp only at h
                rcases hp3 : parameterNodes fuel stp2 with ⟨res3, stp3⟩
                rw [hp3] at h
                cases res3 with
                | error e => simp at h
                | ok v3 =>
                  rcases v3 with ⟨text3, ok3⟩
                  dsimp only at h
                  rcases he : eatATab stp3 with ⟨rese, ste⟩
                  rw [he] at h
                  cases rese with
                  | error e => simp at h
                  | ok u => exact ih _ _ _ _ _ _ h hr (cellsOK_addCell _ _ hh)
              · rw [if_neg hmc] at h
                by_cases hhl : (c == "\\hline") = true
                · rw [if_pos hhl] at h
                  exact ih _ _ _ _ _ _ h
                    (rowsOK_append_marker (addHanging_rowsOK hr hh) _ (by decide))
                    (addHanging_cellsOK hh)
                · rw [if_neg hhl] at h
                  by_cases hcl : (c == "\\cline") = true
                  · rw [if_pos hcl] at h
                    rcases hp1 : parameterVerbatim stv with ⟨⟨rng, ok1⟩, stp1⟩
                    rw [hp1] at h
                    dsimp only at h
                    exact ih _ _ _ _ _ _ h
                      (rowsOK_append_marker (addHanging_rowsOK hr hh) _
                        (by intro hd; simp [Node.elemP] at hd))
                      (addHanging_cellsOK hh)
                  · rw [if_neg hcl] at h
                    exact ih _ _ _ _ _ _ h hr hh
        | symbol s =>
          dsimp only at h
          by_cases hs : (s == "&") = true
          · rw [if_pos hs] at h
            exact ih _ _ _ _ _ _ h hr (cellsOK_addCell _ _ hh)
          · rw [if_neg hs] at h
            exact ih _ _ _ _ _ _ h hr hh
        | envEnd n =>
          dsimp only at h
          rw [Prod.mk.injEq, Except.ok.injEq] at h
          obtain ⟨h1, h2⟩ := h
          subst h1
          exact addHanging_rowsOK hr (cellsOK_addCell _ _ hh)
        | verbatim k d a => exact ih _ _ _ _ _ _ h hr hh
        | paramStart => exact ih _ _ _ _ _ _ h hr hh
        | paramEnd => exact ih _ _ _ _ _ _ h hr hh
        | optStart => exact ih _ _ _ _ _ _ h hr hh
        | optEnd => exact ih _ _ _ _ _ _ h hr hh
        | envStart n => exact ih _ _ _ _ _ _ h hr hh

/-- C1 counterexample: at the well-formed input `"a\n\n\nb"` (the spec's own
paragraph-splitting example), `parse(render(parse(s)))` is not equal to `parse(s)`:
the second paragraph's text is `"b\n"` after the round trip but `"b"` in the
original parse, so the two trees differ at that projection and exact tree
equality fails. -/
theorem C1_counterexample :
    secondParText (reparse 100 "a\n\n\nb") = "b\n" ∧
    secondParText (parseDoc 100 "a\n\n\nb") = "b" ∧
    (secondParText (reparse 100 "a\n\n\nb") ==
      secondParText (parseDoc 100 "a\n\n\nb")) = false :=
  ⟨rfl, rfl, rfl⟩

/-- C1 amended: re-parsing the rendered tree yields a tree equal to the original
only up to whitespace normalization of text content: at `s = "a\n\n\nb"` the two
trees agree after right-trimming whitespace in text nodes, while the re-parsed
tree itself carries the extra trailing newline `"b\n"`. -/
theorem C1_reparse_normalized :
    normalizeResult 100 (reparse 100 "a\n\n\nb") =
      normalizeResult 100 (parseDoc 100 "a\n\n\nb") ∧
    reparse 100 "a\n\n\nb" =
      .ok (Node.doc [Node.elemN "\\par" [Node.textN "a\n"],
        Node.elemN "\\par" [Node.textN "b\n"]]) :=
  ⟨rfl, rfl⟩

/-- C2: parsing `"a\n\n\nb"` yields a document with exactly two synthetic `\par`
children, the first containing the single text node `"a\n"` and the second the
single text node `"b"`. -/
theorem C2_paragraph_splitting :
    parseDoc 100 "a\n\n\nb" =
      .ok (Node.doc [Node.elemN "\\par" [Node.textN "a\n"],
        Node.elemN "\\par" [Node.textN "b"]]) := rfl

/-- C3: `"$x$"` parses to a document whose single child is a `\par` element holding
the inline `$` element with text child `"x"`, while `"$$x$$"` parses to a document
whose single child is the block `$$` element itself, not wrapped in a paragraph. -/
theorem C3_math_inline_vs_block :
    parseDoc 100 "$x$" =
      .ok (Node.doc [Node.elemN "\\par" [Node.elemN "$" [Node.textN "x"]]]) ∧
    parseDoc 100 "$$x$$" = .ok (Node.doc [Node.elemN "$$" [Node.textN "x"]]) :=
  ⟨rfl, rfl⟩

/-- C4 counterexample: lenient parsing of `"a \unknowncmd b"` yields one paragraph
with text `"a b"` (a single space), not `"a  b"`: the tokenizer's `Skip` after the
command name consumes the whitespace following the dropped command. -/
theorem C4_counterexample :
    parseDoc 100 "a \\unknowncmd b" =
      .ok (Node.doc [Node.elemN "\\par" [Node.textN "a b"]]) ∧
    (("a b" : String) == "a  b") = false :=
  ⟨rfl, rfl⟩

/-- C4 amended: lenient parsing of `"a \unknowncmd b"` yields a single paragraph
with text `"a b"` (the unknown command and the whitespace after it are dropped),
while strict parsing fails with an unknown-command error naming `\unknowncmd`. -/
theorem C4_unknown_command_modes :
    parseDoc 100 "a \\unknowncmd b" =
      .ok (Node.doc [Node.elemN "\\par" [Node.textN "a b"]]) ∧
    parseStrict 100 "a \\unknowncmd b" = .error (.msg "unknown command \\unknowncmd") :=
  ⟨rfl, rfl⟩

/-- C5 counterexample: when the `\verb` continuation fails on a disallowed
(whitespace) delimiter, `Token` does not rewind to just after the triggering
character and emit that one character: it emits the whole command name `\verb`
(five characters) as text, rewound to just after the command name. -/
theorem C5_counterexample :
    token "\\verb abc".data = some (.text "\\verb", " abc".data) ∧
    (("\\verb" : String).length == 1) = false :=
  ⟨rfl, rfl⟩

/-- C5 amended: when a specialized continuation fails (a whitespace `\verb`
delimiter, a malformed `\char` argument), the tokenizer rewinds to the position
immediately after the command name and emits the command name as literal text;
unterminated math rewinds to just after the opening dollar sequence and emits it as
text.  In this pure embedding `Token` has no hard error besides end of input. -/
theorem C5_recovery :
    (∀ (d : Char) (s : List Char), isWhitespace d = true →
      token ('\\' :: 'v' :: 'e' :: 'r' :: 'b' :: d :: s) = some (.text "\\verb", d :: s)) ∧
    (∀ (c : Char) (s : List Char), isWhitespace c = false → isLetter c = false →
      isDigit c 10 = false → c ≠ apos → c ≠ '"' → c ≠ '*' →
      token ('\\' :: 'c' :: 'h' :: 'a' :: 'r' :: c :: s) = some (.text "\\char", c :: s)) ∧
    token "$ab".data = some (.text "$", "ab".data) ∧
    token "$$ab".data = some (.text "$$", "ab".data) := by
  refine ⟨?_, ?_, rfl, rfl⟩
  · intro d s hd
    have hd2 : ((d = ' ' ∨ d = '\n') ∨ d = '\t') ∨ d = '\r' := by
      simpa [isWhitespace] using hd
    rcases hd2 with ((rfl | rfl) | rfl) | rfl <;> rfl
  · intro c s h1 h2 h3 h4 h5 h6
    simp +decide [token, readBackslash, isCommandChar, readCommand, readChar,
      readVerbatim, readBlockStart, readBlockEnd, skipWS, List.takeWhile_cons,
      List.dropWhile_cons, h1, h2, h3, h4, h5, h6]

/-- C5 witness: the recovery behavior evaluated at concrete inputs. -/
theorem C5_recovery_witness :
    token ('\\' :: 'v' :: 'e' :: 'r' :: 'b' :: ' ' :: "abc".data) =
      some (.text "\\verb", ' ' :: "abc".data) ∧
    token ('\\' :: 'c' :: 'h' :: 'a' :: 'r' :: '.' :: []) = some (.text "\\char", ['.']) :=
  ⟨C5_recovery.1 ' ' "abc".data (by decide),
   C5_recovery.2.1 '.' [] (by decide) (by decide) (by decide) (by decide) (by decide)
     (by decide)⟩

/-- C6 counterexample: for the input `"\def x{y}"`, in which `\def` is followed by
the text token `x` rather than a command identifier, the lenient `Parse` swallows
the definitional error and returns a document (the spec claims the error always
propagates, in lenient mode as well). -/
theorem C6_counterexample :
    parseDoc 100 "\\def x\x7by\x7d" =
      .ok (Node.doc [Node.elemN "\\par" [Node.elemN groupName [Node.textN "y"]]]) ∧
    (parseDoc 100 "\\def x\x7by\x7d").isOk = true :=
  ⟨rfl, rfl⟩

/-- C6 amended: a `\def` not followed by a valid identifier aborts a strict parse
with the definitional error, while a lenient parse swallows it like any other
conversion error and continues with the next token. -/
theorem C6_def_error_modes :
    parseStrict 100 "\\def x\x7by\x7d" =
      .error (.msg "def must be followed by identifier, for example: \\xyz, got ") ∧
    parseDoc 100 "\\def x\x7by\x7d" =
      .ok (Node.doc [Node.elemN "\\par" [Node.elemN groupName [Node.textN "y"]]]) :=
  ⟨rfl, rfl⟩

/-- C7: in every tree produced by the `tabular` handler, a `\cell` element is
appended to a row only with non-empty collected content and a `\row` element is
appended only with at least one cell, so every `\row` child of the resulting table
node has at least one child, each of which is a `\cell` with non-empty children —
no empty trailing cell is ever synthesized, neither at a row break nor at the
environment end. -/
theorem C7_tabular_cells :
    ∀ (fuel : Nat) (name : String) (st : PState) (node : Node) (b : Bool) (st2 : PState),
      tabularGo fuel name st = (.ok (some node, b), st2) →
      rowsWellFormed node.children = true := by
  intro fuel name st node b st2 h
  match fuel with
  | 0 => simp [tabularGo] at h
  | fuel + 1 =>
    unfold tabularGo at h
    rcases ho : optionStr fuel st with ⟨reso, sto⟩
    rw [ho] at h
    cases reso with
    | error e => simp at h
    | ok vo =>
      rcases vo with ⟨pos, oko⟩
      dsimp only at h
      rcases hp : parameterStr fuel sto with ⟨resp, stp⟩
      rw [hp] at h
      cases resp with
      | error e => simp at h
      | ok vp =>
        rcases vp with ⟨colspec, okp⟩
        dsimp only at h
        rcases hl : tabularLoop fuel name [] [] stp with ⟨resl, stl⟩
        rw [hl] at h
        cases resl with
        | error e => simp at h
        | ok rows =>
          dsimp only at h
          rw [Prod.mk.injEq, Except.ok.injEq, Prod.mk.injEq, Option.some.injEq] at h
          obtain ⟨⟨hnode, hb⟩, hst⟩ := h
          subst hnode
          have hrows := tabularLoop_rowsOK fuel name [] [] stp rows stl hl
            (fun n hn => absurd hn (List.not_mem_nil n))
            (fun n hn => absurd hn (List.not_mem_nil n))
          exact rowsOK_bool hrows

/-- C7 witness: the row/cell invariant applied to a concretely parsed table. -/
theorem C7_tabular_cells_witness :
    tabularGo 100 "tabular"
        ⟨false, [], "\x7bll\x7da & b \\\\ c\\end\x7btabular\x7d".data⟩ =
      (.ok (some tabularWitnessNode, false), ⟨false, [], []⟩) ∧
    rowsWellFormed tabularWitnessNode.children = true :=
  ⟨rfl, C7_tabular_cells 100 "tabular"
    ⟨false, [], "\x7bll\x7da & b \\\\ c\\end\x7btabular\x7d".data⟩
    tabularWitnessNode false ⟨false, [], []⟩ rfl⟩

/-- C8 counterexample: a lone `<` (not followed by another `<`) is returned as a
`Text` token, not as a `Symbol` token as the claim states for every unmatched
ligature leftover. -/
theorem C8_counterexample :
    token ('<' :: 'a' :: []) = some (.text "<", ['a']) ∧
    isSymbolTok (Tok.text "<") = false :=
  ⟨rfl, rfl⟩

/-- C8 amended: an unmatched leftover from the ligature scan is returned as a one-
or two-character `Symbol` for the starters `` ` ``, `'` and `-`, but a lone `<` or
`>` falls back to a `Text` token instead (matched sequences such as `<<` are still
symbols). -/
theorem C8_ligature_leftovers :
    (∀ (c : Char) (s : List Char), c ≠ backquote →
      token (backquote :: c :: s) = some (.symbol "\x60", c :: s)) ∧
    (∀ (c : Char) (s : List Char), c ≠ apos →
      token (apos :: c :: s) = some (.symbol "'", c :: s)) ∧
    (∀ (c : Char) (s : List Char), c ≠ '-' →
      token ('-' :: c :: s) = some (.symbol "-", c :: s)) ∧
    (∀ (c : Char) (s : List Char), c ≠ '<' →
      token ('<' :: c :: s) = some (.text "<", c :: s)) ∧
    (∀ (c : Char) (s : List Char), c ≠ '>' →
      token ('>' :: c :: s) = some (.text ">", c :: s)) ∧
    token [backquote] = some (.symbol "\x60", []) ∧
    token ['-'] = some (.symbol "-", []) ∧
    token ['<'] = some (.text "<", []) ∧
    (∀ s : List Char, token ('<' :: '<' :: s) = some (readLigatureLoop ['<', '<'] s)) := by
  refine ⟨?_, ?_, ?_, ?_, ?_, rfl, rfl, rfl, fun s => rfl⟩ <;>
    · intro c s h
      simp +decide [token, readLigature, readLigatureLoop, ligExtends, h]

/-- C8 witness: the leftover classification evaluated at concrete inputs. -/
theorem C8_ligature_leftovers_witness :
    token (backquote :: 'x' :: []) = some (.symbol "\x60", ['x']) ∧
    token ('-' :: 'x' :: []) = some (.symbol "-", ['x']) ∧
    token ('<' :: 'x' :: []) = some (.text "<", ['x']) ∧
    token ('>' :: 'x' :: []) = some (.text ">", ['x']) :=
  ⟨C8_ligature_leftovers.1 'x' [] (by decide),
   C8_ligature_leftovers.2.2.1 'x' [] (by decide),
   C8_ligature_leftovers.2.2.2.1 'x' [] (by decide),
   C8_ligature_leftovers.2.2.2.2.1 'x' [] (by decide)⟩

/-- C9: `KeyValue` parses comma-separated `key=value` pairs with lower-cased keys;
values may be `"`- or `'`-quoted, quotes may contain backslash-escaped quotes, and
a comma inside a quoted value does not split the pair; in particular
`KeyValue("scale=1.2, angle=45") = {"scale":"1.2","angle":"45"}`. -/
theorem C9_keyvalue :
    KeyValue "scale=1.2, angle=45" = [("scale", "1.2"), ("angle", "45")] ∧
    KeyValue "a=\"x, y\", b=2" = [("a", "x, y"), ("b", "2")] ∧
    KeyValue "a='p\\'q', b=1" = [("a", "p'q"), ("b", "1")] ∧
    KeyValue "SCALE=1.2" = [("scale", "1.2")] :=
  ⟨rfl, rfl, rfl, rfl⟩

/-- C10: every `\heading` element produced by the heading handler carries a `level`
parameter holding a decimal integer between 1 and 6; when the optional level
argument is absent, non-numeric or out of range, the element silently carries
`level="1"` and no error is raised. -/
theorem C10_heading_level :
    (∀ (fuel : Nat) (c : String) (st : PState) (node : Node) (b : Bool) (st2 : PState),
      headingGo fuel c st = (.ok (some node, b), st2) →
      levelWellFormed node = true) ∧
    parseDoc 100 "\\heading[9]\x7bx\x7d" =
      .ok (Node.doc [Node.elemN "\\par"
        [Node.elemP "\\heading" [("level", "1")] [Node.textN "x"]]]) ∧
    parseDoc 100 "\\heading[abc]\x7bx\x7d" =
      .ok (Node.doc [Node.elemN "\\par"
        [Node.elemP "\\heading" [("level", "1")] [Node.textN "x"]]]) ∧
    parseDoc 100 "\\heading\x7bx\x7d" =
      .ok (Node.doc [Node.elemN "\\par"
        [Node.elemP "\\heading" [("level", "1")] [Node.textN "x"]]]) ∧
    parseDoc 100 "\\heading[3]\x7bx\x7d" =
      .ok (Node.doc [Node.elemN "\\par"
        [Node.elemP "\\heading" [("level", "3")] [Node.textN "x"]]]) := by
  refine ⟨?_, rfl, rfl, rfl, rfl⟩
  intro fuel c st node b st2 h
  match fuel with
  | 0 => simp [headingGo] at h
  | fuel + 1 =>
    unfold headingGo at h
    rcases hov : optionVerbatim st with ⟨⟨v, okv⟩, st1⟩
    rw [hov] at h
    dsimp only at h
    rcases hpn : parameterNodes fuel st1 with ⟨res, st3⟩
    rw [hpn] at h
    cases res with
    | error e => simp at h
    | ok val =>
      rcases val with ⟨children, okc⟩
      simp only [Prod.mk.injEq] at h
      obtain ⟨h1, h2⟩ := h
      rw [Except.ok.injEq, Prod.mk.injEq, Option.some.injEq] at h1
      obtain ⟨hnode, hb⟩ := h1
      subst hnode
      apply levelWellFormed_elemP
      cases hat : atoiGo v with
      | none => decide
      | some n =>
        dsimp only
        by_cases hr : 1 ≤ n ∧ n ≤ 6
        · obtain ⟨hl, hu⟩ := hr
          have hc : (decide (1 ≤ n) && decide (n ≤ 6)) = true := by simp [hl, hu]
          rw [if_pos hc]
          interval_cases n <;> decide
        · have hc : ¬ ((decide (1 ≤ n) && decide (n ≤ 6)) = true) := by
            simpa [Decidable.not_and_iff_or_not] using hr
          rw [if_neg hc]
          decide

/-- C10 witness: the level invariant applied to a concrete heading parse. -/
theorem C10_heading_level_witness :
    headingGo 100 "\\heading" ⟨false, [], "[9]\x7bx\x7d".data⟩ =
      (.ok (some (Node.elemP "\\heading" [("level", "1")] [Node.textN "x"]), true),
        ⟨false, [], []⟩) ∧
    levelWellFormed (Node.elemP "\\heading" [("level", "1")] [Node.textN "x"]) = true :=
  ⟨rfl, C10_heading_level.1 100 "\\heading" ⟨false, [], "[9]\x7bx\x7d".data⟩
    (Node.elemP "\\heading" [("level", "1")] [Node.textN "x"]) true ⟨false, [], []⟩ rfl⟩

end Latex
